import Mathlib

/-!
Shallow embedding of the reva retrieval-augmented chat assistant.

The repository has two pipelines: a tool-orchestrating streaming chat
pipeline and a document ingestion / vector retrieval pipeline.  The parts
of the code present under src are embedded directly:

* the `match_documents` Postgres function of the vector store
  (src/unnamed/part_012, lines 33-54);
* the WebSocket chat client `ApiClient.chat` and its connection handling
  (src/frontend/lib/api-client.ts);
* the tool registry data of `ToolSelector` (src/frontend/components/ToolSelector.tsx)
  and the per-tool endpoints of `ApiClient`;
* the `Document` status type (src/frontend/lib/api-client.ts, lines 48-57 and
  src/frontend/app/admin/upload/page.tsx, lines 32-41);
* the upload handler `handleFileUpload` (src/frontend/app/admin/upload/page.tsx).

The backend (chunking engine, orchestrator, ingestion state machine and the
client-side topK/threshold wrapper around `match_documents`) is absent from
src — src/backend holds only a README — so those definitions are modelled
from the spec and marked as such in their doc comments.
-/

namespace Reva

/-! ## Definitions

### Vector Index (src/unnamed/part_012, `match_documents`) -/

/-- A row of the `documents` table: `id uuid, content text, metadata jsonb,
embedding vector`.  Metadata is the flat string-keyed map actually used by
the ingestion pipeline; embeddings are modelled as rational vectors. -/
structure VectorRecord where
  id : String
  content : String
  metadata : List (String × String)
  embedding : List ℚ
deriving DecidableEq, Repr

/-- Jsonb containment `metadata @> filter` for flat objects: every key/value
pair of the filter occurs unchanged in the metadata. -/
def metadataContains (m f : List (String × String)) : Bool :=
  f.all (fun kv => decide (kv ∈ m))

/-- The `match_documents` function of src/unnamed/part_012 lines 33-54:
rows satisfying `metadata @> filter`, each paired with
`1 - (embedding <=> query_embedding)` as its similarity, ordered by
`embedding <=> query_embedding` ascending.  The pgvector operator `<=>`
(cosine distance) is an external capability; it enters as the parameter
`dist`. -/
def matchDocuments (dist : List ℚ → List ℚ → ℚ) (docs : List VectorRecord)
    (queryEmbedding : List ℚ) (filter : List (String × String)) :
    List (VectorRecord × ℚ) :=
  ((docs.filter (fun r => metadataContains r.metadata filter)).map
      (fun r => (r, 1 - dist queryEmbedding r.embedding))).mergeSort
    (fun a b => decide (dist queryEmbedding a.1.embedding ≤ dist queryEmbedding b.1.embedding))

/-- Modelled from the spec: the client-side vector-store wrapper that applies
`similarityThreshold` and `topK` on top of `match_documents` lives in the
external vector-store client library, not under src.  Per §4.3, results with
score below the threshold are excluded and at most `topK` results are
returned. -/
def query (dist : List ℚ → List ℚ → ℚ) (docs : List VectorRecord)
    (queryEmbedding : List ℚ) (filter : List (String × String))
    (topK : ℕ) (similarityThreshold : ℚ) : List (VectorRecord × ℚ) :=
  ((matchDocuments dist docs queryEmbedding filter).filter
      (fun p => decide (similarityThreshold ≤ p.2))).take topK

/-- A concrete stand-in for the external distance operator, used by
witnesses: the head of the record embedding. -/
def demoDist : List ℚ → List ℚ → ℚ := fun _ e => e.headD 0

/-- A demo record at distance 0 from any query under `demoDist`. -/
def demoDocA : VectorRecord :=
  ⟨"a", "alpha", [("documentId", "d1"), ("sequenceIndex", "0")], [0]⟩

/-- A demo record at distance 1 from any query under `demoDist`. -/
def demoDocB : VectorRecord :=
  ⟨"b", "beta", [("documentId", "d1"), ("sequenceIndex", "1")], [1]⟩

/-! ### Stream channel (src/frontend/lib/api-client.ts, `ApiClient.chat`) -/

/-- StreamEvent: tagged union `Delta(text) | Error(message) | Done`. -/
inductive StreamEvent where
  | delta (text : String)
  | errorEv (message : String)
  | done
deriving DecidableEq, Repr

/-- Whether an event terminates a stream (`Done` or `Error`). -/
def StreamEvent.terminal : StreamEvent → Bool
  | .delta _ => false
  | .errorEv _ => true
  | .done => true

/-- The message handler of `ApiClient.chat` (api-client.ts lines 99-109):
the literal `[DONE]` closes the stream, a payload starting with `ERROR:`
errors the stream with the text after the prefix, anything else is enqueued
as a delta. -/
def classifyData (data : String) : StreamEvent :=
  if data = "[DONE]" then .done
  else if data.startsWith "ERROR:" then .errorEv (data.drop 6)
  else .delta data

/-- One chat stream consuming the WebSocket payloads it is handed, in
order.  A terminal payload closes or errors the controller and deletes the
callback from `messageCallbacks` (api-client.ts lines 100-105), so payloads
arriving after it produce no events on this stream. -/
def runStream : List String → List StreamEvent
  | [] => []
  | d :: rest =>
    let e := classifyData d
    if e.terminal then [e] else e :: runStream rest

/-- Delivery of one incoming WebSocket payload by `ws.onmessage`
(api-client.ts line 81): each registered callback key receives the payload.
The inline comment claims the payload is routed to the appropriate callback,
but the `forEach` invokes them all. -/
def routeMessage (callbackKeys : List String) (data : String) :
    List (String × String) :=
  callbackKeys.map (fun key => (key, data))

/-! ### Admin upload page (src/frontend/app/admin/upload/page.tsx) -/

/-- The fields of a selected browser file that `handleFileUpload` reads. -/
structure FileInfo where
  name : String
  size : ℕ
deriving DecidableEq, Repr

/-- The observable steps `handleFileUpload` can take. -/
inductive UploadAction where
  | toastError
  | toastSuccess
  | uploadDocument
  | refreshList
deriving DecidableEq, Repr

/-- The 10MB client-side limit (upload/page.tsx line 94). -/
def maxUploadSize : ℕ := 10 * 1024 * 1024

/-- The `handleFileUpload` handler (upload/page.tsx lines 89-128): no file
selected does nothing; a file larger than `maxUploadSize` raises an error
toast and returns; otherwise the file is posted via
`apiClient.uploadDocument`, followed by a success toast and a list refresh,
or an error toast if the upload call rejects (`uploadSucceeds` abstracts the
network outcome). -/
def handleFileUpload (files : List FileInfo) (uploadSucceeds : Bool) :
    List UploadAction :=
  match files with
  | [] => []
  | file :: _ =>
    if maxUploadSize < file.size then [.toastError]
    else
      .uploadDocument ::
        (if uploadSucceeds then [.toastSuccess, .refreshList] else [.toastError])

/-! ### Tool registry (src/frontend/components/ToolSelector.tsx, lines 12-49) -/

/-- The tool identifiers of the `tools` array in ToolSelector.tsx: note the
web-search tool's id is the string "search", not "web-search". -/
def registeredToolIds : List String :=
  ["search", "document-search", "economic-data", "market-analysis",
    "property-analysis", "value-proposition"]

/-- The per-tool invocation endpoints of `ApiClient`
(api-client.ts lines 149-195): `search` posts to /tools/search,
`documentSearch` to /tools/document-search, `getEconomicData` to
/tools/economic-data, `analyzeMarket` to /tools/market-analysis,
`analyzeProperty` to /tools/property-analysis, `generateValueProposition`
to /tools/value-proposition. -/
def toolEndpoints : List String :=
  ["/tools/search", "/tools/document-search", "/tools/economic-data",
    "/tools/market-analysis", "/tools/property-analysis",
    "/tools/value-proposition"]

/-- Modelled from the spec: the orchestrator's validation of
`requestedTools` (§4.5 step 1 and the §3 ChatRequest invariant: unknown ids
are rejected, not silently dropped) lives in the backend, which is absent
from src. -/
def validateRequestedTools (req : List String) : Except String (List String) :=
  if req.all (fun id => decide (id ∈ registeredToolIds)) then .ok req
  else .error "unknown tool id"

/-! ### Document status (src/frontend/lib/api-client.ts lines 48-57 and
src/frontend/app/admin/upload/page.tsx lines 32-41) -/

/-- The status union of the `Document` interface, identical in both
declarations in src: 'processing' | 'completed' | 'failed'.  There is no
'pending' member. -/
def documentStatusValues : List String := ["processing", "completed", "failed"]

/-- The `Document.status` type from src: only these three states exist. -/
inductive DocStatus where
  | processing
  | completed
  | failed
deriving DecidableEq, Repr

/-- Modelled from the spec: the ingestion pipeline (§4.2) lives in the
backend, absent from src; its per-document state machine is restated over
the status type the src `Document` declarations actually admit.  A document
is created in the non-terminal state and moves to exactly one terminal
state. -/
def uploadInitialStatus : DocStatus := .processing

/-- Modelled from the spec: §4.2 transitions restricted to the src status
type — `processing → completed` after all chunks are upserted,
`processing → failed` on any ingestion error. -/
inductive IngestStep : DocStatus → DocStatus → Prop where
  | complete : IngestStep .processing .completed
  | fail : IngestStep .processing .failed

/-! ### Orchestrator tool execution (modelled from the spec)

The orchestrator and tool executors (§4.4, §4.5) live in the backend, which
is absent from src.  §4.5 step 3: execute all invocations with failure
isolation — one tool's exception or error result never aborts the others or
the overall request; every invocation yields exactly one ToolResult. -/

/-- ToolResult outcome: `Success(payload)` or `Failure(errorKind, message)`. -/
inductive ToolOutcome where
  | success (payload : String)
  | failure (kind : String) (message : String)
deriving DecidableEq, Repr

/-- A ToolResult: the invoked tool id together with its outcome. -/
structure ToolResult where
  toolId : String
  outcome : ToolOutcome
deriving DecidableEq, Repr

/-- Modelled from the spec: an executor maps a tool input to an outcome;
`Except.error` stands for an exception escaping the executor. -/
def ExecBehavior := String → String → Except String ToolOutcome

/-- Modelled from the spec: the per-invocation wrapper — a thrown exception
is captured as a `Failure` ToolResult rather than propagating (§7
propagation policy), so every invocation yields exactly one ToolResult. -/
def runInvocation (r : Except String ToolOutcome) (toolId : String) :
    ToolResult :=
  match r with
  | .ok o => ⟨toolId, o⟩
  | .error e => ⟨toolId, .failure "UpstreamFailure" e⟩

/-- Modelled from the spec: §4.5 step 3 — run every invocation (tool id,
input) through its executor, producing one ToolResult each, in request
order. -/
def executeAll (execs : ExecBehavior) (invs : List (String × String)) :
    List ToolResult :=
  invs.map (fun iv => runInvocation (execs iv.1 iv.2) iv.1)

/-- Modelled from the spec: §4.5 step 4 — concatenate the successful
results' payloads into the model context, in request order; failed tools
contribute nothing. -/
def mergeContext (results : List ToolResult) : List String :=
  results.filterMap (fun r =>
    match r.outcome with
    | .success p => some p
    | .failure _ _ => none)

/-- Replace the behavior of the single tool `t` by `bad` (an arbitrary
failing or misbehaving executor), leaving every other tool untouched. -/
def overrideExec (execs : ExecBehavior) (t : String)
    (bad : String → Except String ToolOutcome) : ExecBehavior :=
  fun id inp => if id = t then bad inp else execs id inp

/-- A demo executor family: web search and economic data both succeed. -/
def demoExecs : ExecBehavior :=
  fun id _ => .ok (.success ("result of " ++ id))

/-- A demo batch of two invocations as in the spec's two-tool scenario. -/
def demoInvs : List (String × String) :=
  [("search", "atlanta retail"), ("economic-data", "GDP")]

/-! ### Chunking engine (modelled from the spec, §4.1) -/

/-- Modelled from the spec: the Chunking Engine is backend code absent from
src.  §4.1: splitting proceeds by character count; the first chunk starts at
the beginning, each later chunk begins `chunkSize - overlap` characters
after the previous chunk's start (here `stepPred + 1` characters, with
`stepPred = chunkSize - overlap - 1`, so the step is positive), and
splitting stops with the chunk that reaches the end of the text (full
coverage). -/
def chunksGo (chunkSize stepPred : ℕ) (t : List Char) : List (List Char) :=
  if h : t.length ≤ chunkSize then [t]
  else t.take chunkSize :: chunksGo chunkSize stepPred (t.drop (stepPred + 1))
termination_by t.length
decreasing_by
  simp only [List.length_drop]
  omega

/-- Modelled from the spec: `chunk(text, chunkSize, overlap)` — empty input
yields an empty sequence (not an error); otherwise the text is split into
chunks of `chunkSize` characters whose starts are `chunkSize - overlap`
apart. -/
def chunk (text : String) (chunkSize overlap : ℕ) : List String :=
  if text.data.isEmpty then []
  else (chunksGo chunkSize (chunkSize - overlap - 1) text.data).map
    (fun l => String.mk l)

/-- The chunk count the spec asserts:
`ceil((len(text) - overlap) / (chunkSize - overlap))`, read over the
integers. -/
def specChunkCount (len chunkSize overlap : ℕ) : ℤ :=
  ⌈(((len : ℚ) - overlap) / ((chunkSize : ℚ) - overlap))⌉

/-! ## Helper lemmas -/

lemma mem_matchDocuments {dist : List ℚ → List ℚ → ℚ} {docs : List VectorRecord}
    {qe : List ℚ} {f : List (String × String)} {p : VectorRecord × ℚ}
    (hp : p ∈ matchDocuments dist docs qe f) :
    p.1 ∈ docs ∧ metadataContains p.1.metadata f = true ∧
      p.2 = 1 - dist qe p.1.embedding := by
  rw [matchDocuments, List.mem_mergeSort, List.mem_map] at hp
  obtain ⟨r, hr, hpr⟩ := hp
  rw [List.mem_filter] at hr
  subst hpr
  exact ⟨hr.1, hr.2, rfl⟩

lemma mem_query {dist : List ℚ → List ℚ → ℚ} {docs : List VectorRecord}
    {qe : List ℚ} {f : List (String × String)} {k : ℕ} {t : ℚ}
    {p : VectorRecord × ℚ} (hp : p ∈ query dist docs qe f k t) :
    p ∈ matchDocuments dist docs qe f ∧ t ≤ p.2 := by
  rw [query] at hp
  have hp' := List.mem_of_mem_take hp
  rw [List.mem_filter] at hp'
  exact ⟨hp'.1, of_decide_eq_true hp'.2⟩

lemma runStream_cons_terminal {d : String} (rest : List String)
    (h : (classifyData d).terminal = true) :
    runStream (d :: rest) = [classifyData d] := by
  simp [runStream, h]

lemma runStream_cons_delta {d : String} (rest : List String)
    (h : (classifyData d).terminal = false) :
    runStream (d :: rest) = classifyData d :: runStream rest := by
  simp [runStream, h]

lemma executeAll_override (execs : ExecBehavior) (t : String)
    (bad : String → Except String ToolOutcome) :
    ∀ invs : List (String × String),
      List.Forall₂ (fun r1 r2 : ToolResult => r1.toolId ≠ t → r1 = r2)
        (executeAll execs invs) (executeAll (overrideExec execs t bad) invs) := by
  intro invs
  induction invs with
  | nil => exact List.Forall₂.nil
  | cons iv rest ih =>
    refine List.Forall₂.cons ?_ ih
    intro hne
    have hid : iv.1 ≠ t := by
      intro h
      exact hne (by simp [runInvocation, executeAll]; cases execs iv.1 iv.2 <;> simp [h])
    simp [overrideExec, hid]

lemma chunksGo_length (chunkSize overlap : ℕ) (h2 : overlap < chunkSize)
    (t : List Char) (ht : overlap < t.length) :
    (chunksGo chunkSize (chunkSize - overlap - 1) t).length =
      (t.length - overlap) ⌈/⌉ (chunkSize - overlap) := by
  rw [chunksGo]
  by_cases h : t.length ≤ chunkSize
  · rw [dif_pos h, List.length_singleton]
    have hnum : t.length - overlap + (chunkSize - overlap) - 1 =
        (t.length - overlap - 1) + (chunkSize - overlap) := by omega
    rw [Nat.ceilDiv_eq_add_pred_div, hnum,
      Nat.add_div_right _ (by omega : 0 < chunkSize - overlap),
      Nat.div_eq_of_lt (by omega)]
  · rw [dif_neg h, List.length_cons,
      chunksGo_length chunkSize overlap h2 (t.drop (chunkSize - overlap - 1 + 1))
        (by simp only [List.length_drop]; omega)]
    rw [Nat.ceilDiv_eq_add_pred_div, Nat.ceilDiv_eq_add_pred_div,
      List.length_drop]
    have hnum1 : t.length - (chunkSize - overlap - 1 + 1) - overlap +
        (chunkSize - overlap) - 1 = t.length - overlap - 1 := by omega
    have hnum2 : t.length - overlap + (chunkSize - overlap) - 1 =
        (t.length - overlap - 1) + (chunkSize - overlap) := by omega
    rw [hnum1, hnum2,
      Nat.add_div_right _ (by omega : 0 < chunkSize - overlap)]
termination_by t.length
decreasing_by
  simp only [List.length_drop]
  omega

lemma ceilDiv_cast_eq_ceil (a b : ℕ) (ha : 0 < a) (hb : 0 < b) :
    ((a ⌈/⌉ b : ℕ) : ℤ) = ⌈((a : ℚ) / (b : ℚ))⌉ := by
  rw [Nat.ceilDiv_eq_add_pred_div]
  have hq : (0 : ℚ) < (b : ℚ) := by exact_mod_cast hb
  have hub : a + b - 1 < ((a + b - 1) / b + 1) * b :=
    (Nat.div_lt_iff_lt_mul hb).mp (Nat.lt_succ_self _)
  have hlb : (a + b - 1) / b * b ≤ a + b - 1 := Nat.div_mul_le_self _ _
  generalize hk : (a + b - 1) / b = k at hub hlb ⊢
  rw [add_mul, one_mul] at hub
  have h1 : a ≤ k * b := by omega
  have h3 : k * b + 1 ≤ a + b := by omega
  have hc1 : (a : ℚ) ≤ (k : ℚ) * b := by exact_mod_cast h1
  have hc3 : (k : ℚ) * b + 1 ≤ (a : ℚ) + b := by exact_mod_cast h3
  symm
  rw [Int.ceil_eq_iff]
  constructor
  · rw [lt_div_iff₀ hq]
    push_cast
    nlinarith
  · rw [div_le_iff₀ hq]
    push_cast
    nlinarith

/-! ## Claims -/

/-- C1: a vector-index query with parameters `topK = k` and
`similarityThreshold = t` returns at most `k` results, and every returned
(record, score) pair has score at least `t`. -/
theorem c1_query_topk_and_threshold (dist : List ℚ → List ℚ → ℚ)
    (docs : List VectorRecord) (qe : List ℚ) (f : List (String × String))
    (k : ℕ) (t : ℚ) :
    (query dist docs qe f k t).length ≤ k ∧
      ∀ p ∈ query dist docs qe f k t, t ≤ p.2 := by
  constructor
  · rw [query]
    exact List.length_take_le k _
  · intro p hp
    exact (mem_query hp).2

/-- C1 witness: on two concrete records with `topK = 1`, the query returns
exactly the one closest record, within the bound and threshold. -/
theorem c1_query_topk_and_threshold_witness :
    ((query demoDist [demoDocA, demoDocB] [] [] 1 0).length ≤ 1 ∧
      ∀ p ∈ query demoDist [demoDocA, demoDocB] [] [] 1 0, (0 : ℚ) ≤ p.2) ∧
      query demoDist [demoDocA, demoDocB] [] [] 1 0 = [(demoDocA, 1)] := by
  refine ⟨c1_query_topk_and_threshold demoDist [demoDocA, demoDocB] [] [] 1 0, ?_⟩
  simp [query, matchDocuments, metadataContains, demoDist, demoDocA, demoDocB,
    List.mergeSort, List.merge]

/-- C6: every score returned by a vector-index query equals
`1 - dist(queryEmbedding, record.embedding)` — with `dist` the pgvector
cosine-distance operator this is exactly cosine similarity, a monotonic
transform of cosine distance — and the returned rows, both of
`match_documents` and of the query wrapper over it, are sorted in
descending order of that score. -/
theorem c6_query_scores_cosine_descending (dist : List ℚ → List ℚ → ℚ)
    (docs : List VectorRecord) (qe : List ℚ) (f : List (String × String))
    (k : ℕ) (t : ℚ) :
    (∀ p ∈ matchDocuments dist docs qe f,
        p.2 = 1 - dist qe p.1.embedding) ∧
      List.Pairwise (fun a b : VectorRecord × ℚ => b.2 ≤ a.2)
        (matchDocuments dist docs qe f) ∧
      (∀ p ∈ query dist docs qe f k t,
        p.2 = 1 - dist qe p.1.embedding) ∧
      List.Pairwise (fun a b : VectorRecord × ℚ => b.2 ≤ a.2)
        (query dist docs qe f k t) := by
  have hquery_sub :
      List.Sublist (query dist docs qe f k t) (matchDocuments dist docs qe f) :=
    List.Sublist.trans (List.take_sublist _ _) (List.filter_sublist _)
  have hsorted :
      List.Pairwise
        (fun a b : VectorRecord × ℚ =>
          (decide (dist qe a.1.embedding ≤ dist qe b.1.embedding)) = true)
        (matchDocuments dist docs qe f) := by
    apply List.sorted_mergeSort
    · intro a b c hab hbc
      simp only [decide_eq_true_eq] at *
      exact le_trans hab hbc
    · intro a b
      simp only [Bool.or_eq_true, decide_eq_true_eq]
      exact le_total _ _
  have hpair : List.Pairwise (fun a b : VectorRecord × ℚ => b.2 ≤ a.2)
      (matchDocuments dist docs qe f) := by
    refine hsorted.imp_of_mem ?_
    intro a b ha hb hab
    have ha2 := (mem_matchDocuments ha).2.2
    have hb2 := (mem_matchDocuments hb).2.2
    simp only [decide_eq_true_eq] at hab
    rw [ha2, hb2]
    linarith
  exact ⟨fun p hp => (mem_matchDocuments hp).2.2, hpair,
    fun p hp => (mem_matchDocuments (mem_query hp).1).2.2,
    hpair.sublist hquery_sub⟩

/-- C6 witness: two concrete records given in reverse relevance order come
back sorted descending by similarity, with the scores `1 - distance`. -/
theorem c6_query_scores_cosine_descending_witness :
    ((∀ p ∈ matchDocuments demoDist [demoDocB, demoDocA] [] [],
        p.2 = 1 - demoDist [] p.1.embedding) ∧
      List.Pairwise (fun a b : VectorRecord × ℚ => b.2 ≤ a.2)
        (matchDocuments demoDist [demoDocB, demoDocA] [] []) ∧
      (∀ p ∈ query demoDist [demoDocB, demoDocA] [] [] 2 0,
        p.2 = 1 - demoDist [] p.1.embedding) ∧
      List.Pairwise (fun a b : VectorRecord × ℚ => b.2 ≤ a.2)
        (query demoDist [demoDocB, demoDocA] [] [] 2 0)) ∧
      matchDocuments demoDist [demoDocB, demoDocA] [] [] =
        [(demoDocA, 1), (demoDocB, 0)] := by
  refine ⟨c6_query_scores_cosine_descending demoDist [demoDocB, demoDocA]
    [] [] 2 0, ?_⟩
  simp [matchDocuments, metadataContains, demoDist, demoDocA, demoDocB,
    List.mergeSort, List.merge]

/-- C9: with a metadata filter, a record is returned by a vector-index query
only if its metadata map contains every key/value pair of the filter
unchanged (jsonb containment `metadata @> filter`). -/
theorem c9_query_metadata_filter_superset (dist : List ℚ → List ℚ → ℚ)
    (docs : List VectorRecord) (qe : List ℚ) (f : List (String × String))
    (k : ℕ) (t : ℚ) :
    ∀ p ∈ query dist docs qe f k t, ∀ kv ∈ f, kv ∈ p.1.metadata := by
  intro p hp kv hkv
  have hm := (mem_matchDocuments (mem_query hp).1).2.1
  rw [metadataContains, List.all_eq_true] at hm
  simpa using hm kv hkv

/-- C9 witness: filtering on sequenceIndex = 1 returns only the record
whose metadata carries that exact pair, and the theorem recovers the pair
from its metadata. -/
theorem c9_query_metadata_filter_superset_witness :
    query demoDist [demoDocA, demoDocB] [] [("sequenceIndex", "1")] 5 0 =
        [(demoDocB, 0)] ∧
      ("sequenceIndex", "1") ∈ demoDocB.metadata := by
  have hq : query demoDist [demoDocA, demoDocB] [] [("sequenceIndex", "1")] 5 0 =
      [(demoDocB, 0)] := by
    simp [query, matchDocuments, metadataContains, demoDist, demoDocA, demoDocB,
      List.mergeSort, List.merge]
  refine ⟨hq, ?_⟩
  have hp : (demoDocB, (0 : ℚ)) ∈
      query demoDist [demoDocA, demoDocB] [] [("sequenceIndex", "1")] 5 0 := by
    rw [hq]
    exact List.mem_singleton_self _
  exact c9_query_metadata_filter_superset demoDist [demoDocA, demoDocB] []
    [("sequenceIndex", "1")] 5 0 (demoDocB, 0) hp ("sequenceIndex", "1")
    (List.mem_singleton_self _)

/-- C2: on every chat stream, a terminal event (`Done` or `Error`) is only
ever the last event delivered — every event that precedes another event is a
delta — so at most one terminal event occurs and no event follows it; and
whenever the server sends a terminating payload, the stream does end with
one terminal event. -/
theorem c2_stream_single_terminal (msgs : List String) :
    List.Pairwise (fun a _ => StreamEvent.terminal a = false) (runStream msgs) ∧
      ((∃ m ∈ msgs, (classifyData m).terminal = true) →
        ∃ e, (runStream msgs).getLast? = some e ∧ e.terminal = true) := by
  induction msgs with
  | nil => exact ⟨List.Pairwise.nil, by simp⟩
  | cons d rest ih =>
    by_cases hd : (classifyData d).terminal = true
    · rw [runStream_cons_terminal rest hd]
      exact ⟨List.pairwise_singleton _ _, fun _ => ⟨classifyData d, rfl, hd⟩⟩
    · rw [Bool.not_eq_true] at hd
      rw [runStream_cons_delta rest hd]
      constructor
      · exact List.Pairwise.cons (fun e _ => hd) ih.1
      · rintro ⟨m, hm, hmt⟩
        rcases List.mem_cons.mp hm with rfl | hm'
        · rw [hd] at hmt
          cases hmt
        · obtain ⟨e, he, het⟩ := ih.2 ⟨m, hm', hmt⟩
          refine ⟨e, ?_, het⟩
          rw [List.getLast?_cons, he]
          have : runStream rest ≠ [] := by
            intro hnil
            rw [hnil] at he
            cases he
          simp [List.getLastD, this, ← he, List.getLast?_eq_getLast _ this,
            List.getLast?_eq_getLast]

/-- C2 witness: on the concrete payload sequence "hi", "[DONE]" the stream
delivers one delta followed by the unique terminal `Done`. -/
theorem c2_stream_single_terminal_witness :
    (List.Pairwise (fun a _ => StreamEvent.terminal a = false)
        (runStream ["hi", "[DONE]"]) ∧
      ((∃ m ∈ ["hi", "[DONE]"], (classifyData m).terminal = true) →
        ∃ e, (runStream ["hi", "[DONE]"]).getLast? = some e ∧
          e.terminal = true)) ∧
      runStream ["hi", "[DONE]"] = [.delta "hi", .done] := by
  refine ⟨c2_stream_single_terminal ["hi", "[DONE]"], ?_⟩
  decide

/-- C7 counter-evidence: with two concurrent chat requests "a" and "b"
registered on the shared `messageCallbacks` map, a delta payload "hello"
produced for request "a" is also delivered to request "b"'s callback and
enqueued on its stream as `Delta "hello"`. -/
theorem c7_delta_delivered_to_other_stream :
    ("b", "hello") ∈ routeMessage ["a", "b"] "hello" ∧
      classifyData "hello" = StreamEvent.delta "hello" ∧
      routeMessage ["a", "b"] "hello" = [("a", "hello"), ("b", "hello")] := by
  refine ⟨?_, ?_, ?_⟩ <;> decide

/-- C10: whenever the selected file's size exceeds 10 * 1024 * 1024 bytes,
`handleFileUpload` produces only the error notification and never calls
`apiClient.uploadDocument`, whatever the network would have answered. -/
theorem c10_oversize_file_never_uploaded (files : List FileInfo)
    (file : FileInfo) (rest : List FileInfo) (ok : Bool)
    (hfiles : files = file :: rest) (hsize : maxUploadSize < file.size) :
    handleFileUpload files ok = [.toastError] ∧
      UploadAction.uploadDocument ∉ handleFileUpload files ok := by
  subst hfiles
  rw [handleFileUpload, if_pos hsize]
  exact ⟨rfl, by decide⟩

/-- C10 witness: a single selected file of 10MB + 1 byte is rejected
client-side with an error toast and no upload request. -/
theorem c10_oversize_file_never_uploaded_witness :
    handleFileUpload [⟨"big.pdf", 10 * 1024 * 1024 + 1⟩] true =
        [.toastError] ∧
      UploadAction.uploadDocument ∉
        handleFileUpload [⟨"big.pdf", 10 * 1024 * 1024 + 1⟩] true :=
  c10_oversize_file_never_uploaded _ _ _ true rfl (by decide)

/-- C8 counterexample: the registered tool identifier for web search is
"search", not "web-search", so the registered set is not the set the claim
states. -/
theorem c8_web_search_id_not_registered :
    "web-search" ∉ registeredToolIds ∧ "search" ∈ registeredToolIds := by
  decide

/-- C8 amended: the registered tool identifiers are exactly
{search, document-search, economic-data, market-analysis,
property-analysis, value-proposition} — each backed by its invocation
endpoint /tools/(id) in the api client — and a request whose tool list
contains an identifier outside this set is rejected with an error, not
silently dropped. -/
theorem c8_registered_tools_and_rejection (req : List String) (id : String)
    (hid : id ∈ req) (hout : id ∉ registeredToolIds) :
    toolEndpoints = registeredToolIds.map (fun i => "/tools/" ++ i) ∧
      validateRequestedTools req = .error "unknown tool id" := by
  constructor
  · decide
  · rw [validateRequestedTools, if_neg]
    rw [List.all_eq_true]
    intro hall
    exact hout (of_decide_eq_true (hall id hid))

/-- C8 witness: a request carrying the unknown identifier "web-search" is
rejected. -/
theorem c8_registered_tools_and_rejection_witness :
    "web-search" ∈ ["web-search"] ∧
      "web-search" ∉ registeredToolIds ∧
      (toolEndpoints = registeredToolIds.map (fun i => "/tools/" ++ i) ∧
        validateRequestedTools ["web-search"] = .error "unknown tool id") :=
  ⟨by decide, by decide,
    c8_registered_tools_and_rejection ["web-search"] "web-search"
      (by decide) (by decide)⟩

/-- C5 counterexample: the claim's initial state 'pending' is not a value of
the `Document.status` type declared in src, so no Document record of this
code is ever in state pending. -/
theorem c5_pending_not_a_document_status :
    "pending" ∉ documentStatusValues ∧ documentStatusValues.length = 3 := by
  decide

/-- C5 amended: every Document status is one of processing, completed,
failed; a Document is created with status processing on upload acceptance;
and the only transitions are from processing to exactly one terminal state
(completed or failed), from which no further transition exists. -/
theorem c5_document_status_lifecycle (s t : DocStatus) (h : IngestStep s t) :
    uploadInitialStatus = .processing ∧
      s = .processing ∧ (t = .completed ∨ t = .failed) ∧
      ∀ u, ¬ IngestStep t u := by
  cases h with
  | complete =>
    refine ⟨rfl, rfl, Or.inl rfl, ?_⟩
    intro u hu
    cases hu
  | fail =>
    refine ⟨rfl, rfl, Or.inr rfl, ?_⟩
    intro u hu
    cases hu

/-- C5 witness: the completion transition exists and satisfies the
lifecycle. -/
theorem c5_document_status_lifecycle_witness :
    IngestStep .processing .completed ∧
      (uploadInitialStatus = .processing ∧
        DocStatus.processing = .processing ∧
        (DocStatus.completed = .completed ∨ DocStatus.completed = .failed) ∧
        ∀ u, ¬ IngestStep .completed u) :=
  ⟨.complete, c5_document_status_lifecycle _ _ .complete⟩

/-- C4: tool execution isolates failures — (a) every invocation yields
exactly one ToolResult, in request order, and the batch itself is a total
function (no uncaught error reaches the caller); (b) replacing one tool's
executor by an arbitrarily failing one leaves every other invocation's
ToolResult unchanged; (c) every successful payload reaches the merged model
context. -/
theorem c4_tool_failure_isolation (execs : ExecBehavior)
    (invs : List (String × String)) (t : String)
    (bad : String → Except String ToolOutcome) :
    (executeAll execs invs).length = invs.length ∧
      List.Forall₂ (fun r1 r2 : ToolResult => r1.toolId ≠ t → r1 = r2)
        (executeAll execs invs) (executeAll (overrideExec execs t bad) invs) ∧
      ∀ r ∈ executeAll execs invs, ∀ p, r.outcome = .success p →
        p ∈ mergeContext (executeAll execs invs) := by
  refine ⟨by simp [executeAll], executeAll_override execs t bad invs, ?_⟩
  intro r hr p hp
  rw [mergeContext, List.mem_filterMap]
  exact ⟨r, hr, by rw [hp]⟩

/-- C4 witness: on the two-tool batch, forcing the economic-data executor to
throw leaves the search invocation's ToolResult unchanged, each invocation
yields one result, and the successful payload is in the merged context. -/
theorem c4_tool_failure_isolation_witness :
    ((executeAll demoExecs demoInvs).length = demoInvs.length ∧
      List.Forall₂ (fun r1 r2 : ToolResult => r1.toolId ≠ "economic-data" → r1 = r2)
        (executeAll demoExecs demoInvs)
        (executeAll (overrideExec demoExecs "economic-data"
          (fun _ => .error "timeout")) demoInvs) ∧
      ∀ r ∈ executeAll demoExecs demoInvs, ∀ p, r.outcome = .success p →
        p ∈ mergeContext (executeAll demoExecs demoInvs)) ∧
      mergeContext (executeAll (overrideExec demoExecs "economic-data"
          (fun _ => .error "timeout")) demoInvs) = ["result of search"] := by
  refine ⟨c4_tool_failure_isolation demoExecs demoInvs "economic-data" _, ?_⟩
  decide

/-- C3 counterexample: with the valid parameters `chunkSize = 3`,
`overlap = 2` and the non-empty one-character text "a", the engine yields
one chunk, while the claimed count `ceil((1 - 2) / (3 - 2))` is `-1`. -/
theorem c3_chunk_count_formula_fails_short_text :
    (chunk "a" 3 2).length = 1 ∧ specChunkCount 1 3 2 = -1 ∧
      ((chunk "a" 3 2).length : ℤ) ≠ specChunkCount ("a".length) 3 2 := by
  have h1 : chunk "a" 3 2 = ["a"] := by
    rw [chunk, chunksGo]
    rfl
  have h2 : specChunkCount 1 3 2 = -1 := by
    rw [specChunkCount, Int.ceil_eq_iff]
    norm_num
  refine ⟨by rw [h1]; rfl, h2, ?_⟩
  rw [h1]
  have : ("a".length) = 1 := rfl
  rw [this, h2]
  decide

/-- C3 amended: for positive `overlap < chunkSize`, `chunk` is deterministic
(it depends only on the text's characters and the parameters), empty text
yields zero chunks, text of length greater than `overlap` yields exactly
`ceil((len - overlap) / (chunkSize - overlap))` chunks, and non-empty text
no longer than `overlap` — where the claimed formula's value is not positive
— yields one chunk. -/
theorem c3_chunk_deterministic_and_count (text : String)
    (chunkSize overlap : ℕ) (_h1 : 0 < overlap) (h2 : overlap < chunkSize) :
    (∀ t2 : String, t2.data = text.data →
        chunk t2 chunkSize overlap = chunk text chunkSize overlap) ∧
      (text.data = [] → chunk text chunkSize overlap = []) ∧
      (overlap < text.length →
        ((chunk text chunkSize overlap).length : ℤ) =
          specChunkCount text.length chunkSize overlap) ∧
      (0 < text.length → text.length ≤ overlap →
        (chunk text chunkSize overlap).length = 1) := by
  refine ⟨?_, ?_, ?_, ?_⟩
  · intro t2 hdata
    rw [chunk, chunk, hdata]
  · intro hnil
    rw [chunk, if_pos (by rw [hnil]; rfl)]
  · intro hlen
    have hlen' : overlap < text.data.length := hlen
    have hne : text.data.isEmpty = false := by
      cases hd : text.data with
      | nil => rw [hd] at hlen'; simp at hlen'
      | cons c l => rfl
    rw [chunk, if_neg (by rw [hne]; exact Bool.false_ne_true),
      List.length_map, chunksGo_length chunkSize overlap h2 text.data hlen']
    have hcast := ceilDiv_cast_eq_ceil (text.data.length - overlap)
      (chunkSize - overlap) (by omega) (by omega)
    rw [specChunkCount]
    have harg : ((text.data.length - overlap : ℕ) : ℚ) =
        ((text.length : ℚ) - overlap) := by
      have : text.length = text.data.length := rfl
      rw [this]
      push_cast [Nat.cast_sub (le_of_lt hlen')]
      ring
    have harg2 : ((chunkSize - overlap : ℕ) : ℚ) =
        ((chunkSize : ℚ) - overlap) := by
      push_cast [Nat.cast_sub (le_of_lt h2)]
      ring
    rw [hcast, harg, harg2]
  · intro hpos hle
    have hne : text.data.isEmpty = false := by
      have hpos' : 0 < text.data.length := hpos
      cases hd : text.data with
      | nil => rw [hd] at hpos'; simp at hpos'
      | cons c l => rfl
    rw [chunk, if_neg (by rw [hne]; exact Bool.false_ne_true),
      List.length_map, chunksGo, dif_pos (by
        have : text.length ≤ overlap := hle
        have : text.data.length ≤ overlap := hle
        omega), List.length_singleton]

/-- C3 witness: the spec's three-page-scenario shape in miniature — a
four-character text with `chunkSize = 3`, `overlap = 2` gives
`ceil((4 - 2) / (3 - 2)) = 2` chunks, and the one-character text is the
boundary case with one chunk. -/
theorem c3_chunk_deterministic_and_count_witness :
    (0 < 2 ∧ 2 < 3 ∧ 2 < "abcd".length ∧ 0 < "a".length ∧ "a".length ≤ 2) ∧
      (∀ t2 : String, t2.data = "abcd".data →
          chunk t2 3 2 = chunk "abcd" 3 2) ∧
      (("abcd" : String).data = [] → chunk "abcd" 3 2 = []) ∧
      (2 < "abcd".length →
        ((chunk "abcd" 3 2).length : ℤ) = specChunkCount ("abcd".length) 3 2) ∧
      (0 < "abcd".length → "abcd".length ≤ 2 →
        (chunk "abcd" 3 2).length = 1) := by
  refine ⟨⟨by decide, by decide, by decide, by decide, by decide⟩, ?_⟩
  exact c3_chunk_deterministic_and_count "abcd" 3 2 (by decide) (by decide)

end Reva
